import Mathlib

/-!
Verification of the Session concurrency and lifecycle engine of the
melody package (src/session.go), via a shallow embedding in Lean 4.

Modelling conventions, used throughout:
* bytes are `Nat`, byte slices are `List Nat`;
* Go `time.Time` / `time.Duration` are `Int` nanoseconds;
* the gorilla/websocket frame-type constants keep their RFC 6455 values;
* handler callbacks (`melody.errorHandler`, the sent-message hooks, ...)
  are external collaborators; invoking one is recorded by appending to a
  trace list in the state;
* a Go panic that a function lets escape would crash the process; a panic
  that is produced by a primitive and caught by a deferred `recover` is
  modelled by an `Except.error` value that the caller pattern-matches on;
* concurrency is modelled by explicit interleaving: a schedule (a list of
  scheduler choices) selects which enabled atomic step runs next.
-/

namespace Melody

/-- gorilla/websocket frame-type constants (RFC 6455 values). -/
def TextMessage : Nat := 1

/-- gorilla/websocket binary frame type. -/
def BinaryMessage : Nat := 2

/-- gorilla/websocket close frame type. -/
def CloseMessage : Nat := 8

/-- gorilla/websocket ping frame type. -/
def PingMessage : Nat := 9

/-- gorilla/websocket pong frame type. -/
def PongMessage : Nat := 10

/-- session.go line 14: `StatusNormal = uint32(1)`. -/
def StatusNormal : Nat := 1

/-- session.go line 15: `StatusStop = uint32(2)`. -/
def StatusStop : Nat := 2

/-- The envelope struct of the melody package as used by session.go: a
frame type `t` and a payload `msg` (one outbound unit). -/
structure envelope where
  t : Nat
  msg : List Nat
deriving DecidableEq, Repr

/-- Error text used by `writeMessage` (session.go lines 32 and 37). -/
def errWriteClosed : String := "tried to write to closed a session"

/-- Error text returned by `writeRaw` (session.go line 45). -/
def errWriteRawClosed : String := "tried to write to a closed session"

/-- Error text returned by `Write` / `WriteBinary` (session.go lines 155, 166). -/
def errSessionClosed : String := "session is closed"

/-- Error text returned by `Close` / `CloseWithMsg` (session.go lines 177, 189). -/
def errAlreadyClosed : String := "session is already closed"

/-- The Go runtime panic message raised by a send on a closed channel. -/
def errSendOnClosed : String := "send on closed channel"

/-- The observable state of one Session, as touched by the public write
API and the close path: `status` (the atomic uint32 flag), whether the
`output` channel has been closed, the envelopes buffered in `output`, the
trace of `melody.errorHandler` invocations, and how many times
`conn.Close()` has been called on the transport. -/
structure SessionState where
  status : Nat
  outputClosed : Bool
  output : List envelope
  errorReports : List String
  connCloseCount : Nat
deriving DecidableEq, Repr

/-- session.go lines 58-60: `closed` reads the atomic status flag and
compares it with `StatusStop`. -/
def closed (s : SessionState) : Bool :=
  s.status == StatusStop

/-- session.go lines 62-70, as executed by a single caller: if `closed()`
is false, the critical section stores `StatusStop`, calls `conn.Close()`,
and closes the `output` channel.  (The interleaving of two concurrent
callers is modelled separately by `closeRaceRun`, because the `closed()`
check on line 63 happens OUTSIDE the lock taken on line 64.) -/
def close (s : SessionState) : SessionState :=
  if closed s then s
  else
    { s with
      status := StatusStop
      connCloseCount := s.connCloseCount + 1
      outputClosed := true }

/-- The Go channel-send primitive `s.output <- message`: appends to the
buffer when the channel is open, and raises the run-time panic
`send on closed channel` (modelled as `Except.error`) when it is closed. -/
def chanSend (s : SessionState) (message : envelope) : Except String SessionState :=
  if s.outputClosed then Except.error errSendOnClosed
  else Except.ok { s with output := s.output ++ [message] }

/-- session.go lines 30-41.  `closeRaces = true` models a concurrent
`close()` running in the window between the `closed()` check on line 31
and the channel send on line 40.  The deferred `recover` on lines 35-39
catches the send-on-closed-channel panic and turns it into an
`errorHandler` report, so every path returns normally. -/
def writeMessage (s : SessionState) (closeRaces : Bool) (message : envelope) : SessionState :=
  if closed s then
    { s with errorReports := s.errorReports ++ [errWriteClosed] }
  else
    match chanSend (if closeRaces then close s else s) message with
    | Except.error _ =>
      { (if closeRaces then close s else s) with
        errorReports := (if closeRaces then close s else s).errorReports ++ [errWriteClosed] }
    | Except.ok s2 => s2

/-- session.go lines 152-161: `Write` checks `closed()`, returning the
`session is closed` error, and otherwise enqueues a Text envelope via
`writeMessage` and returns nil. -/
def Write (s : SessionState) (closeRaces : Bool) (msg : List Nat) :
    SessionState × Option String :=
  if closed s then (s, some errSessionClosed)
  else (writeMessage s closeRaces (envelope.mk TextMessage msg), none)

/-- session.go lines 163-172: `WriteBinary`, identical with a Binary
envelope. -/
def WriteBinary (s : SessionState) (closeRaces : Bool) (msg : List Nat) :
    SessionState × Option String :=
  if closed s then (s, some errSessionClosed)
  else (writeMessage s closeRaces (envelope.mk BinaryMessage msg), none)

/-- session.go lines 174-183: `Close` checks `closed()`, returning the
`session is already closed` error, and otherwise enqueues a Close
envelope with an empty payload and returns nil.  It does NOT itself
change `status`. -/
def Close (s : SessionState) (closeRaces : Bool) :
    SessionState × Option String :=
  if closed s then (s, some errAlreadyClosed)
  else (writeMessage s closeRaces (envelope.mk CloseMessage []), none)

/-- session.go lines 185-195: `CloseWithMsg`, identical to `Close` but
with a caller-supplied payload. -/
def CloseWithMsg (s : SessionState) (closeRaces : Bool) (msg : List Nat) :
    SessionState × Option String :=
  if closed s then (s, some errAlreadyClosed)
  else (writeMessage s closeRaces (envelope.mk CloseMessage msg), none)

/-- Channel-closed implies status already stopped: `close()` (lines
62-70) stores `StatusStop` before it closes the `output` channel, and
nothing else ever closes the channel, so whenever `outputClosed` holds
the status flag is `StatusStop`. -/
def wf (s : SessionState) : Bool :=
  !s.outputClosed || (s.status == StatusStop)

/-!
## Interleaving model of two concurrent `close()` calls

`Session.close` (session.go lines 62-70) is

    if !s.closed() {            -- step 1: the check, outside the lock
        s.rwMutex.Lock()
        atomic.StoreUint32(&s.status, StatusStop)
        _ = s.conn.Close()
        close(s.output)
        s.rwMutex.Unlock()      -- steps 2-5: the locked critical section
    }

The mutex serialises the critical sections, so each of the two
concurrent calls is modelled as two atomic steps: the `closed()` check,
and the whole critical section.  `connCloseCount` counts executions of
`conn.Close()`; `outputCloseCount` counts executions of
`close(s.output)` (a second one is the run-time panic
`close of closed channel` in Go).
-/

/-- Program counter of one task running `Session.close`. -/
inductive ClosePC where
  | start
  | passedCheck
  | done
deriving DecidableEq, Repr

/-- State of two tasks concurrently executing `Session.close` on one
session. -/
structure CloseRaceState where
  status : Nat
  connCloseCount : Nat
  outputCloseCount : Nat
  pc1 : ClosePC
  pc2 : ClosePC
deriving DecidableEq, Repr

/-- One atomic step of the task whose program counter is `pc`: the
`closed()` check (line 63), or the locked critical section (lines 64-68).
Returns the new shared state and the new program counter. -/
def closeTaskStep (st cc oc : Nat) (pc : ClosePC) : Nat × Nat × Nat × ClosePC :=
  match pc with
  | ClosePC.start =>
    if st == StatusStop then (st, cc, oc, ClosePC.done)
    else (st, cc, oc, ClosePC.passedCheck)
  | ClosePC.passedCheck => (StatusStop, cc + 1, oc + 1, ClosePC.done)
  | ClosePC.done => (st, cc, oc, ClosePC.done)

/-- Run one scheduler choice: `false` steps task 1, `true` steps task 2. -/
def closeRaceStep (s : CloseRaceState) (tid : Bool) : CloseRaceState :=
  if tid then
    match closeTaskStep s.status s.connCloseCount s.outputCloseCount s.pc2 with
    | (st, cc, oc, pc) => CloseRaceState.mk st cc oc s.pc1 pc
  else
    match closeTaskStep s.status s.connCloseCount s.outputCloseCount s.pc1 with
    | (st, cc, oc, pc) => CloseRaceState.mk st cc oc pc s.pc2

/-- Run a whole schedule of interleaved steps. -/
def closeRaceRun (s : CloseRaceState) : List Bool → CloseRaceState
  | [] => s
  | tid :: rest => closeRaceRun (closeRaceStep s tid) rest

/-- Both tasks about to call `close()` on an open session. -/
def closeRaceInit : CloseRaceState :=
  CloseRaceState.mk StatusNormal 0 0 ClosePC.start ClosePC.start

/-!
## The Write Pump (session.go lines 76-108)

The pump loops on a `select` over the `output` channel and the heartbeat
ticker.  Go semantics relevant here:
* receiving from a channel yields a buffered element while one remains
  (even after the channel is closed) and yields `ok = false` only once
  the channel is closed AND empty;
* when several `select` cases can proceed, one is chosen pseudo-randomly,
  so a schedule (a list of choices) models which ready case fires.

State components: the channel buffer and its closed flag, the session
status (read by `writeRaw`), the ordered trace `connWrites` of frames the
transport accepted, a counter of `conn.WriteMessage` attempts (used to
inject transport failures), the `errorHandler` trace, the sent-message
hook traces, a counter of invocations of the close path `Session.close`
(the body of `writePump` contains none, which the counter makes
observable), and whether the pump has returned.
-/

/-- State of the write pump together with the parts of the session it
touches. -/
structure PumpState where
  buffer : List envelope
  qClosed : Bool
  status : Nat
  connWrites : List envelope
  writeAttempts : Nat
  errorReports : List String
  sentText : List (List Nat)
  sentBinary : List (List Nat)
  closeInvocations : Nat
  returned : Bool
deriving DecidableEq, Repr

/-- Error text for a transport write failure injected by `connFail`. -/
def errTransportWrite : String := "transport write error"

/-- session.go lines 43-56: `writeRaw` returns the closed-session error
when `status` is `StatusStop`, otherwise sets the write deadline
(not tracked) and calls `conn.WriteMessage`; `connFail` lists the indices
of transport write attempts that fail. -/
def writeRaw (connFail : List Nat) (s : PumpState) (message : envelope) :
    PumpState × Option String :=
  if s.status == StatusStop then (s, some errWriteRawClosed)
  else
    if connFail.contains s.writeAttempts then
      ({ s with writeAttempts := s.writeAttempts + 1 }, some errTransportWrite)
    else
      ({ s with
          writeAttempts := s.writeAttempts + 1
          connWrites := s.connWrites ++ [message] }, none)

/-- session.go lines 72-74: `ping` writes a Ping envelope via `writeRaw`
and DISCARDS the error (`_ = s.writeRaw(...)`), so the pump keeps
looping whatever the outcome. -/
def ping (connFail : List Nat) (s : PumpState) : PumpState :=
  (writeRaw connFail s (envelope.mk PingMessage [])).1

/-- A scheduler choice inside the `select` of `writePump`: receive from
the `output` channel, or a heartbeat ticker tick. -/
inductive Choice where
  | recv
  | tick
deriving DecidableEq, Repr

/-- One iteration of the `writePump` loop (session.go lines 79-107).
`Choice.recv` with an empty open buffer would block, so it is a no-op
(a real scheduler never picks it); `Choice.recv` with a closed empty
buffer is the `ok = false` branch: the pump returns.  Otherwise the head
envelope is dequeued and written: a write error is reported to the
`errorHandler` and the pump returns; a Close envelope makes the pump
return after the successful write; a Text or Binary envelope fires the
corresponding sent-message hook and the loop continues.  A tick runs
`ping` and always continues. -/
def pumpStep (connFail : List Nat) (s : PumpState) (c : Choice) : PumpState :=
  match c with
  | Choice.tick => ping connFail s
  | Choice.recv =>
    match s.buffer with
    | [] => if s.qClosed then { s with returned := true } else s
    | msg :: rest =>
      match writeRaw connFail { s with buffer := rest } msg with
      | (s1, some e) =>
        { s1 with errorReports := s1.errorReports ++ [e], returned := true }
      | (s1, none) =>
        if msg.t == CloseMessage then { s1 with returned := true }
        else
          if msg.t == TextMessage then
            { s1 with sentText := s1.sentText ++ [msg.msg] }
          else
            if msg.t == BinaryMessage then
              { s1 with sentBinary := s1.sentBinary ++ [msg.msg] }
            else s1

/-- Run `writePump` under a schedule; once the pump has returned,
remaining schedule entries change nothing. -/
def writePumpRun (connFail : List Nat) (s : PumpState) : List Choice → PumpState
  | [] => s
  | c :: rest =>
    if s.returned then s
    else writePumpRun connFail (pumpStep connFail s c) rest

/-- The Close envelope with empty payload, as enqueued by `Close`. -/
def closeEnvelope : envelope := envelope.mk CloseMessage []

/-- The Ping envelope written by `ping`. -/
def pingEnvelope : envelope := envelope.mk PingMessage []

/-- The transport trace with heartbeat pings removed: the application
messages and close frames, in order. -/
def nonPing (l : List envelope) : List envelope :=
  l.filter (fun e => !(e.t == PingMessage))

/-- The close frames of a transport trace. -/
def closeFrames (l : List envelope) : List envelope :=
  l.filter (fun e => e.t == CloseMessage)

/-- An application envelope: Text or Binary. -/
def isAppKind (e : envelope) : Bool :=
  (e.t == TextMessage) || (e.t == BinaryMessage)

/-- Number of `recv` choices in a schedule. -/
def countRecv (sched : List Choice) : Nat :=
  (sched.filter (fun c => c == Choice.recv)).length

/-- `true` when every heartbeat ping of the run happens at a moment when
the outbound buffer is empty (no Envelope pending). -/
def pingsOnlyWhenIdle (connFail : List Nat) (s : PumpState) : List Choice → Bool
  | [] => true
  | c :: rest =>
    if s.returned then true
    else
      (if c == Choice.tick then s.buffer.isEmpty else true) &&
        pingsOnlyWhenIdle connFail (pumpStep connFail s c) rest

/-!
## Read-deadline renewal (session.go lines 110-150)

Times and durations are `Int` nanoseconds; `timeSecond` is Go
`time.Second`.  `renewals` is the trace of `conn.SetReadDeadline`
syscalls actually issued, as pairs (time of the call, deadline passed).
-/

/-- Go `time.Second` in nanoseconds. -/
def timeSecond : Int := 1000000000

/-- The deadline-renewal state: `lastReadTime` and the trace of issued
`SetReadDeadline` syscalls. -/
structure RDState where
  lastReadTime : Int
  renewals : List (Int × Int)
deriving DecidableEq, Repr

/-- session.go lines 144-150: `setReadDeadline` issues the renewal
syscall, with deadline `lastReadTime + (PongWait + PingPeriod)` after
setting `lastReadTime := now`, only when `now - lastReadTime` is at
least one second; otherwise it does nothing. -/
def setReadDeadline (pongWait pingPeriod now : Int) (s : RDState) : RDState :=
  if timeSecond ≤ now - s.lastReadTime then
    RDState.mk now (s.renewals ++ [(now, now + (pongWait + pingPeriod))])
  else s

/-- The renewal calls made by the read pump: one `setReadDeadline` per
successful read (session.go line 133) and per pong notification
(session.go line 115), at the given times. -/
def runRenewals (pongWait pingPeriod : Int) (times : List Int) (s : RDState) : RDState :=
  times.foldl (fun acc now => setReadDeadline pongWait pingPeriod now acc) s

/-- Consecutive entries of the list are at least one second apart. -/
def gapsOK : List Int → Bool
  | [] => true
  | [_] => true
  | a :: b :: rest => decide (a + timeSecond ≤ b) && gapsOK (b :: rest)

/-- Every issued renewal carries deadline `time + (pongWait + pingPeriod)`. -/
def deadlinesOK (pongWait pingPeriod : Int) (l : List (Int × Int)) : Bool :=
  l.all (fun p => p.2 == p.1 + (pongWait + pingPeriod))

/-- The start of `readPump` (session.go lines 110-112): set the read
limit from `MaxMessageSize`, then call `setReadDeadline` once, with
`lastReadTime` still holding the zero value `zeroTime` it had when the
session was created. -/
structure ReadStart where
  readLimit : Option Int
  rd : RDState
deriving DecidableEq, Repr

/-- Models session.go lines 110-112 executed at time `now`. -/
def readPumpInit (maxMessageSize pongWait pingPeriod zeroTime now : Int) : ReadStart :=
  ReadStart.mk (some maxMessageSize)
    (setReadDeadline pongWait pingPeriod now (RDState.mk zeroTime []))

/-!
## Concrete states used as test inputs
-/

/-- An open session with an empty queue and no history. -/
def openSession : SessionState :=
  SessionState.mk StatusNormal false [] [] 0

/-- The write pump facing a closed, fully drained outbound queue. -/
def drainedState : PumpState :=
  PumpState.mk [] true StatusNormal [] 0 [] [] [] 0 false

/-- The write pump with exactly one Close envelope queued. -/
def closeQueuedState : PumpState :=
  PumpState.mk [closeEnvelope] false StatusNormal [] 0 [] [] [] 0 false

/-- The write pump with one Text envelope pending in the queue. -/
def textPendingState : PumpState :=
  PumpState.mk [envelope.mk TextMessage [97]] false StatusNormal [] 0 [] [] [] 0 false

/-- The initial write-pump state of a session whose callers enqueued
`msgs` and then one Close envelope, before the pump ran. -/
def pumpInit (msgs : List envelope) : PumpState :=
  PumpState.mk (msgs ++ [closeEnvelope]) false StatusNormal [] 0 [] [] [] 0 false

/-!
## Helper lemmas
-/

theorem writePumpRun_returned (connFail : List Nat) (s : PumpState)
    (sched : List Choice) (h : s.returned = true) :
    writePumpRun connFail s sched = s := by
  cases sched with
  | nil => rfl
  | cons c rest => simp [writePumpRun, h]

theorem writeRaw_fst_fields (connFail : List Nat) (s : PumpState) (m : envelope) :
    (writeRaw connFail s m).1.closeInvocations = s.closeInvocations ∧
    (writeRaw connFail s m).1.status = s.status ∧
    (writeRaw connFail s m).1.qClosed = s.qClosed := by
  unfold writeRaw
  split
  · exact ⟨rfl, rfl, rfl⟩
  · split
    · exact ⟨rfl, rfl, rfl⟩
    · exact ⟨rfl, rfl, rfl⟩

theorem pumpStep_preserves_teardown_fields (connFail : List Nat) (s : PumpState)
    (c : Choice) :
    (pumpStep connFail s c).closeInvocations = s.closeInvocations ∧
    (pumpStep connFail s c).status = s.status ∧
    (pumpStep connFail s c).qClosed = s.qClosed := by
  cases c with
  | tick => exact writeRaw_fst_fields connFail s (envelope.mk PingMessage [])
  | recv =>
    cases hbuf : s.buffer with
    | nil =>
      simp only [pumpStep, hbuf]
      split <;> simp
    | cons msg rest =>
      have hw := writeRaw_fst_fields connFail { s with buffer := rest } msg
      simp only [pumpStep, hbuf]
      rcases hE : writeRaw connFail { s with buffer := rest } msg with ⟨s1, r⟩
      rw [hE] at hw
      simp only [] at hw
      cases r with
      | some e => simp [hw.1, hw.2.1, hw.2.2]
      | none =>
        dsimp only
        split
        · simp [hw.1, hw.2.1, hw.2.2]
        · split
          · simp [hw.1, hw.2.1, hw.2.2]
          · split <;> simp [hw.1, hw.2.1, hw.2.2]

theorem countRecv_cons_recv (rest : List Choice) :
    countRecv (Choice.recv :: rest) = countRecv rest + 1 := by
  simp [countRecv, List.filter_cons]

theorem countRecv_cons_tick (rest : List Choice) :
    countRecv (Choice.tick :: rest) = countRecv rest := by
  simp [countRecv, List.filter_cons]

theorem nonPing_concat_nonping (l : List envelope) (e : envelope)
    (h : (e.t == PingMessage) = false) :
    nonPing (l ++ [e]) = nonPing l ++ [e] := by
  simp [nonPing, List.filter_append, List.filter_cons, h]

theorem nonPing_concat_ping (l : List envelope) :
    nonPing (l ++ [pingEnvelope]) = nonPing l := by
  simp [nonPing, List.filter_append, List.filter_cons, pingEnvelope, PingMessage]

theorem isAppKind_not_close (e : envelope) (h : isAppKind e = true) :
    (e.t == CloseMessage) = false := by
  unfold isAppKind at h
  rcases Bool.or_eq_true_iff.mp h with h1 | h1 <;>
    simp_all [TextMessage, BinaryMessage, CloseMessage]

theorem isAppKind_not_ping (e : envelope) (h : isAppKind e = true) :
    (e.t == PingMessage) = false := by
  unfold isAppKind at h
  rcases Bool.or_eq_true_iff.mp h with h1 | h1 <;>
    simp_all [TextMessage, BinaryMessage, PingMessage]

/-!
## The claims
-/

/-- C1: the spec claims the close path is idempotent and exactly-once
even under concurrent invocation.  The `closed()` check on session.go
line 63 happens outside the lock taken on line 64, so two concurrent
`close()` calls can both pass the check and both run the critical
section: the transport `conn.Close()` executes twice, and
`close(s.output)` executes twice, which in Go is the run-time panic
`close of closed channel`.  The spec (sections 3, 4.4 and 9) states the
intended exactly-once guarantee explicitly, so this is a bug in the
code: under the schedule check1, check2, crit1, crit2 both counters
reach 2. -/
theorem close_race_double_close :
    (closeRaceRun closeRaceInit [false, true, false, true]).connCloseCount = 2 ∧
    (closeRaceRun closeRaceInit [false, true, false, true]).outputCloseCount = 2 :=
  ⟨rfl, rfl⟩

/-- C2 counterexample: when the write pump receives `ok = false` from
the drained, closed queue (session.go lines 81-84), it terminates with
no write to the transport at all: the transport trace contains no close
frame, contradicting the claim that a final Close Envelope is sent. -/
theorem drain_terminates_without_close_frame :
    (writePumpRun [] drainedState [Choice.recv]).returned = true ∧
    closeFrames (writePumpRun [] drainedState [Choice.recv]).connWrites = [] :=
  ⟨rfl, rfl⟩

/-- C2 amended: when the write pump observes that the outbound queue
has been closed and no items remain, it returns immediately, writing
nothing further to the transport (in particular no final Close
Envelope). -/
theorem drain_returns_without_final_close_envelope (connFail : List Nat)
    (s : PumpState) (hb : s.buffer = []) (hq : s.qClosed = true) :
    pumpStep connFail s Choice.recv = { s with returned := true } := by
  simp [pumpStep, hb, hq]

/-- Witness for `drain_returns_without_final_close_envelope` at the
concrete drained state. -/
theorem drain_returns_without_final_close_envelope_witness :
    drainedState.buffer = [] ∧ drainedState.qClosed = true ∧
    pumpStep [] drainedState Choice.recv = { drainedState with returned := true } :=
  ⟨rfl, rfl, drain_returns_without_final_close_envelope [] drainedState rfl rfl⟩

/-- C4 counterexample: with `PongWait = 5s` and `PingPeriod = 2s`, the
read pump start (session.go lines 110-112) issues an initial read
deadline of `now + 7s`, not the claimed `now + PongWait = now + 5s`,
because `setReadDeadline` always adds `PongWait + PingPeriod`. -/
theorem initial_read_deadline_not_pongwait_cex :
    (readPumpInit 65536 (5 * timeSecond) (2 * timeSecond) 0 (2 * timeSecond)).rd.renewals
      = [(2 * timeSecond, 2 * timeSecond + (5 * timeSecond + 2 * timeSecond))] ∧
    ¬ (readPumpInit 65536 (5 * timeSecond) (2 * timeSecond) 0 (2 * timeSecond)).rd.renewals
      = [(2 * timeSecond, 2 * timeSecond + 5 * timeSecond)] := by
  constructor
  · rfl
  · decide

/-- C4 amended: when the read pump starts, it sets the read limit from
`MaxMessageSize` and issues an initial read deadline of
`now + (PongWait + PingPeriod)` — not `now + PongWait` — provided at
least one second has elapsed since the zero-valued `lastReadTime`
(always true at start, the Go zero time being far in the past). -/
theorem read_pump_start_limit_and_deadline
    (maxMessageSize pongWait pingPeriod zeroTime now : Int)
    (h : zeroTime + timeSecond ≤ now) :
    (readPumpInit maxMessageSize pongWait pingPeriod zeroTime now).readLimit
      = some maxMessageSize ∧
    (readPumpInit maxMessageSize pongWait pingPeriod zeroTime now).rd.renewals
      = [(now, now + (pongWait + pingPeriod))] ∧
    (readPumpInit maxMessageSize pongWait pingPeriod zeroTime now).rd.lastReadTime
      = now := by
  have hc : timeSecond ≤ now - zeroTime := by omega
  refine ⟨rfl, ?_, ?_⟩ <;> simp [readPumpInit, setReadDeadline, hc]

/-- C3 counterexample: the write pump dequeues a Close envelope, writes
it, and returns (session.go lines 93-95) — a terminal transition — yet
the close path is never invoked: afterwards the close-invocation count
is 0, the status is still `StatusNormal`, and the queue is still open.
The claimed effects of the close path (status set to Closed, queue
closed) did not happen. -/
theorem pump_terminal_without_teardown_cex :
    (writePumpRun [] closeQueuedState [Choice.recv]).returned = true ∧
    (writePumpRun [] closeQueuedState [Choice.recv]).closeInvocations = 0 ∧
    (writePumpRun [] closeQueuedState [Choice.recv]).status = StatusNormal ∧
    (writePumpRun [] closeQueuedState [Choice.recv]).qClosed = false :=
  ⟨rfl, rfl, rfl, rfl⟩

/-- C3 amended: on every terminal transition the write pump simply
returns; it never invokes the close path.  Under any schedule and any
injected transport failures, the pump leaves the close-invocation
count, the session status, and the queue-closed flag untouched —
teardown is driven by the code that called `writePump`, not by the pump
itself. -/
theorem write_pump_never_invokes_close_path (connFail : List Nat)
    (s : PumpState) (sched : List Choice) :
    (writePumpRun connFail s sched).closeInvocations = s.closeInvocations ∧
    (writePumpRun connFail s sched).status = s.status ∧
    (writePumpRun connFail s sched).qClosed = s.qClosed := by
  induction sched generalizing s with
  | nil => exact ⟨rfl, rfl, rfl⟩
  | cons c rest ih =>
    by_cases h : s.returned = true
    · simp [writePumpRun, h]
    · have hf : s.returned = false := by simpa using h
      have h1 := pumpStep_preserves_teardown_fields connFail s c
      have h2 := ih (pumpStep connFail s c)
      simp only [writePumpRun, hf, Bool.false_eq_true, if_false]
      exact ⟨h2.1.trans h1.1, h2.2.1.trans h1.2.1, h2.2.2.trans h1.2.2⟩

/-- C5 counterexample: the ticker case of the `select` (session.go
lines 104-105) can fire while an Envelope is pending — Go chooses
pseudo-randomly among ready `select` cases — so a heartbeat ping can be
written to the transport while a Text envelope sits in the queue,
contradicting the claim that pings are only interleaved when no
Envelope is pending. -/
theorem ping_while_envelope_pending_cex :
    pingsOnlyWhenIdle [] textPendingState [Choice.tick] = false ∧
    (writePumpRun [] textPendingState [Choice.tick]).connWrites = [pingEnvelope] ∧
    textPendingState.buffer ≠ [] :=
  ⟨rfl, rfl, by decide⟩

/-- Drain lemma for the write pump: starting from a queue holding the
application envelopes `B` followed by one Close envelope, an open
session and a fault-free transport, any schedule with at least
`B.length + 1` receive choices drives the pump to write exactly the
envelopes of `B` in order and then the Close envelope (heartbeat pings
interspersed arbitrarily), terminate on the Close envelope, and write
nothing afterwards. -/
theorem pump_drain (sched : List Choice) :
    ∀ (B W : List envelope) (wa : Nat) (er : List String)
      (st sb : List (List Nat)) (ci : Nat),
      (∀ e ∈ B, isAppKind e = true) →
      B.length + 1 ≤ countRecv sched →
      nonPing (writePumpRun []
          (PumpState.mk (B ++ [closeEnvelope]) false StatusNormal W wa er st sb ci false)
          sched).connWrites = nonPing W ++ B ++ [closeEnvelope] ∧
      (writePumpRun []
          (PumpState.mk (B ++ [closeEnvelope]) false StatusNormal W wa er st sb ci false)
          sched).connWrites.getLast? = some closeEnvelope ∧
      (writePumpRun []
          (PumpState.mk (B ++ [closeEnvelope]) false StatusNormal W wa er st sb ci false)
          sched).returned = true := by
  induction sched with
  | nil =>
    intro B W wa er st sb ci _ hrec
    simp [countRecv] at hrec
  | cons c rest ih =>
    intro B W wa er st sb ci happ hrec
    cases c with
    | tick =>
      have hstep : pumpStep []
          (PumpState.mk (B ++ [closeEnvelope]) false StatusNormal W wa er st sb ci false)
          Choice.tick
          = PumpState.mk (B ++ [closeEnvelope]) false StatusNormal
              (W ++ [pingEnvelope]) (wa + 1) er st sb ci false := by
        simp [pumpStep, ping, writeRaw, StatusNormal, StatusStop, pingEnvelope]
      have hrw : writePumpRun []
          (PumpState.mk (B ++ [closeEnvelope]) false StatusNormal W wa er st sb ci false)
          (Choice.tick :: rest)
          = writePumpRun []
              (PumpState.mk (B ++ [closeEnvelope]) false StatusNormal
                (W ++ [pingEnvelope]) (wa + 1) er st sb ci false) rest := by
        simp only [writePumpRun, hstep]
        simp
      rw [countRecv_cons_tick] at hrec
      have hgoal := ih B (W ++ [pingEnvelope]) (wa + 1) er st sb ci happ hrec
      rw [hrw]
      refine ⟨?_, hgoal.2.1, hgoal.2.2⟩
      rw [hgoal.1, nonPing_concat_ping]
    | recv =>
      rw [countRecv_cons_recv] at hrec
      cases B with
      | nil =>
        have hstep : pumpStep []
            (PumpState.mk ([] ++ [closeEnvelope]) false StatusNormal W wa er st sb ci false)
            Choice.recv
            = PumpState.mk [] false StatusNormal
                (W ++ [closeEnvelope]) (wa + 1) er st sb ci true := by
          simp [pumpStep, writeRaw, StatusNormal, StatusStop, closeEnvelope, CloseMessage]
        have hrw : writePumpRun []
            (PumpState.mk ([] ++ [closeEnvelope]) false StatusNormal W wa er st sb ci false)
            (Choice.recv :: rest)
            = PumpState.mk [] false StatusNormal
                (W ++ [closeEnvelope]) (wa + 1) er st sb ci true := by
          simp only [writePumpRun, hstep]
          simp [writePumpRun_returned]
        rw [hrw]
        refine ⟨?_, ?_, rfl⟩
        · simp [nonPing_concat_nonping, closeEnvelope, CloseMessage, PingMessage, nonPing]
        · exact List.getLast?_concat W
      | cons b B2 =>
        have hb : isAppKind b = true := happ b (by simp)
        have hbc : (b.t == CloseMessage) = false := isAppKind_not_close b hb
        have hbp : (b.t == PingMessage) = false := isAppKind_not_ping b hb
        have happ2 : ∀ e ∈ B2, isAppKind e = true := by
          intro e he
          exact happ e (by simp [he])
        have hrec2 : B2.length + 1 ≤ countRecv rest := by
          simp at hrec
          omega
        by_cases ht : (b.t == TextMessage) = true
        · have hstep : pumpStep []
              (PumpState.mk ((b :: B2) ++ [closeEnvelope]) false StatusNormal W wa er st sb ci false)
              Choice.recv
              = PumpState.mk (B2 ++ [closeEnvelope]) false StatusNormal
                  (W ++ [b]) (wa + 1) er (st ++ [b.msg]) sb ci false := by
            simp [pumpStep, writeRaw, StatusNormal, StatusStop, hbc, ht]
          have hrw : writePumpRun []
              (PumpState.mk ((b :: B2) ++ [closeEnvelope]) false StatusNormal W wa er st sb ci false)
              (Choice.recv :: rest)
              = writePumpRun []
                  (PumpState.mk (B2 ++ [closeEnvelope]) false StatusNormal
                    (W ++ [b]) (wa + 1) er (st ++ [b.msg]) sb ci false) rest := by
            simp only [writePumpRun, hstep]
            simp
          have hgoal := ih B2 (W ++ [b]) (wa + 1) er (st ++ [b.msg]) sb ci happ2 hrec2
          rw [hrw]
          refine ⟨?_, hgoal.2.1, hgoal.2.2⟩
          rw [hgoal.1, nonPing_concat_nonping W b hbp]
          simp
        · have hbin : (b.t == BinaryMessage) = true := by
            unfold isAppKind at hb
            rcases Bool.or_eq_true_iff.mp hb with h1 | h1
            · exact absurd h1 (by simp [ht])
            · exact h1
          have hstep : pumpStep []
              (PumpState.mk ((b :: B2) ++ [closeEnvelope]) false StatusNormal W wa er st sb ci false)
              Choice.recv
              = PumpState.mk (B2 ++ [closeEnvelope]) false StatusNormal
                  (W ++ [b]) (wa + 1) er st (sb ++ [b.msg]) ci false := by
            simp [pumpStep, writeRaw, StatusNormal, StatusStop, hbc, ht, hbin]
          have hrw : writePumpRun []
              (PumpState.mk ((b :: B2) ++ [closeEnvelope]) false StatusNormal W wa er st sb ci false)
              (Choice.recv :: rest)
              = writePumpRun []
                  (PumpState.mk (B2 ++ [closeEnvelope]) false StatusNormal
                    (W ++ [b]) (wa + 1) er st (sb ++ [b.msg]) ci false) rest := by
            simp only [writePumpRun, hstep]
            simp
          have hgoal := ih B2 (W ++ [b]) (wa + 1) er st (sb ++ [b.msg]) ci happ2 hrec2
          rw [hrw]
          refine ⟨?_, hgoal.2.1, hgoal.2.2⟩
          rw [hgoal.1, nonPing_concat_nonping W b hbp]
          simp

theorem closeFrames_nonPing (l : List envelope) :
    closeFrames (nonPing l) = closeFrames l := by
  induction l with
  | nil => rfl
  | cons e r ih =>
    by_cases h : (e.t == PingMessage) = true
    · have hc : (e.t == CloseMessage) = false := by
        have he : e.t = PingMessage := by simpa using h
        simp [he, PingMessage, CloseMessage]
      simp [nonPing, closeFrames, List.filter_cons, h, hc] at *
      exact ih
    · have h2 : (e.t == PingMessage) = false := by simpa using h
      by_cases hc : (e.t == CloseMessage) = true
      · simp [nonPing, closeFrames, List.filter_cons, h2, hc] at *
        exact ih
      · have hc2 : (e.t == CloseMessage) = false := by simpa using hc
        simp [nonPing, closeFrames, List.filter_cons, h2, hc2] at *
        exact ih

/-- C5 amended: for every sequence of `Write`/`WriteBinary` payloads
enqueued before `Close`, and every schedule (with enough receive steps
to drain the queue) over a fault-free transport, the transport receives
the application envelopes in exactly the enqueued order followed by
exactly one close frame, which is the last frame written; heartbeat
pings may be interleaved anywhere — even while an Envelope is pending —
but never reorder the application messages. -/
theorem write_fifo_order_then_single_close (msgs : List envelope)
    (sched : List Choice)
    (happ : ∀ e ∈ msgs, isAppKind e = true)
    (hrecv : msgs.length + 1 ≤ countRecv sched) :
    nonPing (writePumpRun [] (pumpInit msgs) sched).connWrites
      = msgs ++ [closeEnvelope] ∧
    closeFrames (writePumpRun [] (pumpInit msgs) sched).connWrites
      = [closeEnvelope] ∧
    (writePumpRun [] (pumpInit msgs) sched).connWrites.getLast?
      = some closeEnvelope ∧
    (writePumpRun [] (pumpInit msgs) sched).returned = true := by
  have h := pump_drain sched msgs [] 0 [] [] [] 0 happ hrecv
  unfold pumpInit
  refine ⟨?_, ?_, h.2.1, h.2.2⟩
  · have := h.1
    simpa [nonPing] using this
  · have h1 : nonPing (writePumpRun []
        (PumpState.mk (msgs ++ [closeEnvelope]) false StatusNormal [] 0 [] [] [] 0 false)
        sched).connWrites = msgs ++ [closeEnvelope] := by
      have := h.1
      simpa [nonPing] using this
    rw [← closeFrames_nonPing, h1]
    unfold closeFrames
    rw [List.filter_append]
    have hmsgs : msgs.filter (fun e => e.t == CloseMessage) = [] := by
      rw [List.filter_eq_nil_iff]
      intro e he
      simp [isAppKind_not_close e (happ e he)]
    rw [hmsgs]
    simp [closeEnvelope, CloseMessage]

/-- Witness for `write_fifo_order_then_single_close`: two application
envelopes and a schedule with a heartbeat tick interleaved. -/
theorem write_fifo_order_then_single_close_witness :
    (∀ e ∈ [envelope.mk TextMessage [97], envelope.mk BinaryMessage [1]],
      isAppKind e = true) ∧
    ([envelope.mk TextMessage [97], envelope.mk BinaryMessage [1]].length + 1
      ≤ countRecv [Choice.recv, Choice.tick, Choice.recv, Choice.recv]) ∧
    nonPing (writePumpRun []
        (pumpInit [envelope.mk TextMessage [97], envelope.mk BinaryMessage [1]])
        [Choice.recv, Choice.tick, Choice.recv, Choice.recv]).connWrites
      = [envelope.mk TextMessage [97], envelope.mk BinaryMessage [1]] ++ [closeEnvelope] :=
  ⟨by decide, by decide,
    (write_fifo_order_then_single_close
      [envelope.mk TextMessage [97], envelope.mk BinaryMessage [1]]
      [Choice.recv, Choice.tick, Choice.recv, Choice.recv]
      (by decide) (by decide)).1⟩

/-- Witness for `write_pump_never_invokes_close_path` on a concrete run
that dequeues a Close envelope and terminates. -/
theorem write_pump_never_invokes_close_path_witness :
    (writePumpRun [] textPendingState [Choice.recv, Choice.tick]).closeInvocations
        = textPendingState.closeInvocations ∧
    (writePumpRun [] textPendingState [Choice.recv, Choice.tick]).status
        = textPendingState.status ∧
    (writePumpRun [] textPendingState [Choice.recv, Choice.tick]).qClosed
        = textPendingState.qClosed :=
  write_pump_never_invokes_close_path [] textPendingState [Choice.recv, Choice.tick]

/-- C7: `Write` returns the `session is closed` error when the status
flag is `StatusStop` at the entry check, and otherwise enqueues a Text
envelope with the payload and returns nil; `WriteBinary` is identical
with a Binary envelope (session.go lines 152-172).  The `wf` hypothesis
is the program invariant that the queue is only ever closed after the
status flag is set. -/
theorem write_checks_closed_then_enqueues (s : SessionState) (msg : List Nat)
    (h : wf s = true) :
    (closed s = true →
      Write s false msg = (s, some errSessionClosed) ∧
      WriteBinary s false msg = (s, some errSessionClosed)) ∧
    (closed s = false →
      Write s false msg
        = ({ s with output := s.output ++ [envelope.mk TextMessage msg] }, none) ∧
      WriteBinary s false msg
        = ({ s with output := s.output ++ [envelope.mk BinaryMessage msg] }, none)) := by
  constructor
  · intro hc
    constructor <;> simp [Write, WriteBinary, hc]
  · intro hc
    unfold closed at hc
    have hout : s.outputClosed = false := by
      unfold wf at h
      rw [hc] at h
      simpa using h
    constructor <;>
      simp [Write, WriteBinary, writeMessage, chanSend, closed, hc, hout]

/-- Witness for `write_checks_closed_then_enqueues` on an open session. -/
theorem write_checks_closed_then_enqueues_witness :
    wf openSession = true ∧
    closed openSession = false ∧
    Write openSession false [97]
      = ({ openSession with
            output := openSession.output ++ [envelope.mk TextMessage [97]] }, none) :=
  ⟨rfl, rfl, ((write_checks_closed_then_enqueues openSession [97] rfl).2 rfl).1⟩

/-- C8 counterexample: calling `Close` twice in direct sequence on an
open session returns nil BOTH times, not `AlreadyClosed` on the second
call: `Close` only enqueues a Close envelope (session.go lines 174-183)
and never touches the status flag itself, and the asynchronous close
path has not run between the two calls. -/
theorem second_close_returns_nil_cex :
    (Close (Close openSession false).1 false).2 = none ∧
    (Close (Close openSession false).1 false).2 ≠ some errAlreadyClosed := by
  constructor
  · rfl
  · intro hcontra
    exact Option.noConfusion hcontra

/-- C8 amended: `Close` returns the `session is already closed` error
when the status flag is `StatusStop`, and otherwise enqueues a Close
envelope with an empty payload and returns nil; teardown is
asynchronous and `Close` itself never changes the status, so a second
`Close` issued in direct sequence (before the close path has run) also
returns nil — `AlreadyClosed` is observed on the second call only once
the close path has set the status to Closed. -/
theorem close_enqueues_close_envelope (s : SessionState) (h : wf s = true) :
    (closed s = true → Close s false = (s, some errAlreadyClosed)) ∧
    (closed s = false →
      Close s false = ({ s with output := s.output ++ [closeEnvelope] }, none) ∧
      (Close (Close s false).1 false).2 = none) := by
  constructor
  · intro hc
    simp [Close, hc]
  · intro hc
    unfold closed at hc
    have hout : s.outputClosed = false := by
      unfold wf at h
      rw [hc] at h
      simpa using h
    have h1 : Close s false = ({ s with output := s.output ++ [closeEnvelope] }, none) := by
      simp [Close, writeMessage, chanSend, closed, closeEnvelope, hc, hout]
    refine ⟨h1, ?_⟩
    rw [h1]
    simp [Close, writeMessage, chanSend, closed, hc, hout]

/-- Witness for `close_enqueues_close_envelope` on an open session. -/
theorem close_enqueues_close_envelope_witness :
    wf openSession = true ∧
    closed openSession = false ∧
    Close openSession false
      = ({ openSession with output := openSession.output ++ [closeEnvelope] }, none) :=
  ⟨rfl, rfl, ((close_enqueues_close_envelope openSession rfl).2 rfl).1⟩

/-- C9: a `Write` racing with a concurrent close never lets a panic
escape: the send on the concurrently-closed queue (a Go run-time panic,
modelled as the `Except.error` of `chanSend`) is caught by the deferred
`recover` of `writeMessage` and converted into an `errorHandler` report.
Every execution returns normally: either the session was closed at the
entry check and `Write` reports `session is closed`, or the envelope was
enqueued, or the enqueue was dropped and exactly one error report was
emitted. -/
theorem racing_write_never_crashes (s : SessionState) (msg : List Nat)
    (closeRaces : Bool) (h : wf s = true) :
    (closed s = true → Write s closeRaces msg = (s, some errSessionClosed)) ∧
    (closed s = false →
      (Write s closeRaces msg).2 = none ∧
      (((Write s closeRaces msg).1.output = s.output ++ [envelope.mk TextMessage msg] ∧
         (Write s closeRaces msg).1.errorReports = s.errorReports) ∨
        ((Write s closeRaces msg).1.output = s.output ∧
         (Write s closeRaces msg).1.errorReports
           = s.errorReports ++ [errWriteClosed]))) := by
  constructor
  · intro hc
    simp [Write, hc]
  · intro hc
    unfold closed at hc
    have hout : s.outputClosed = false := by
      unfold wf at h
      rw [hc] at h
      simpa using h
    cases closeRaces with
    | false =>
      refine ⟨by simp [Write, closed, hc], Or.inl ?_⟩
      simp [Write, writeMessage, chanSend, closed, hc, hout]
    | true =>
      refine ⟨by simp [Write, closed, hc], Or.inr ?_⟩
      simp [Write, writeMessage, chanSend, close, closed, hc, hout]

/-- Witness for `racing_write_never_crashes`: an open session whose
queue is closed between the check and the send; the write is dropped,
reported, and `Write` still returns nil. -/
theorem racing_write_never_crashes_witness :
    wf openSession = true ∧
    closed openSession = false ∧
    ((Write openSession true [97]).2 = none ∧
      (((Write openSession true [97]).1.output
            = openSession.output ++ [envelope.mk TextMessage [97]] ∧
         (Write openSession true [97]).1.errorReports = openSession.errorReports) ∨
        ((Write openSession true [97]).1.output = openSession.output ∧
         (Write openSession true [97]).1.errorReports
           = openSession.errorReports ++ [errWriteClosed]))) :=
  ⟨rfl, rfl, (racing_write_never_crashes openSession [97] true rfl).2 rfl⟩

/-- C10: every public call — `Write`, `WriteBinary`, `Close`,
`CloseWithMsg` — that observes the session as open at its entry check
returns nil, even when the envelope is then dropped because the queue
was closed concurrently; the drop is visible only through the error
handler (one report appended), never through the returned value. -/
theorem open_entry_calls_return_nil (s : SessionState) (m m2 : List Nat)
    (closeRaces : Bool) (hopen : closed s = false) :
    (Write s closeRaces m).2 = none ∧
    (WriteBinary s closeRaces m).2 = none ∧
    (Close s closeRaces).2 = none ∧
    (CloseWithMsg s closeRaces m2).2 = none ∧
    (closeRaces = true →
      (Write s closeRaces m).1.output = s.output ∧
      (Write s closeRaces m).1.errorReports = s.errorReports ++ [errWriteClosed]) := by
  unfold closed at hopen
  refine ⟨?_, ?_, ?_, ?_, ?_⟩
  · simp [Write, closed, hopen]
  · simp [WriteBinary, closed, hopen]
  · simp [Close, closed, hopen]
  · simp [CloseWithMsg, closed, hopen]
  · intro hcb
    subst hcb
    by_cases hout : s.outputClosed = true
    · simp [Write, writeMessage, chanSend, close, closed, hopen, hout]
    · have hout2 : s.outputClosed = false := by simpa using hout
      simp [Write, writeMessage, chanSend, close, closed, hopen, hout2]

/-- Witness for `open_entry_calls_return_nil` on an open session with a
racing close. -/
theorem open_entry_calls_return_nil_witness :
    closed openSession = false ∧
    ((Write openSession true [97]).2 = none ∧
      (WriteBinary openSession true [97]).2 = none ∧
      (Close openSession true).2 = none ∧
      (CloseWithMsg openSession true [3, 232]).2 = none ∧
      (true = true →
        (Write openSession true [97]).1.output = openSession.output ∧
        (Write openSession true [97]).1.errorReports
          = openSession.errorReports ++ [errWriteClosed])) :=
  ⟨rfl, open_entry_calls_return_nil openSession [97] [3, 232] true rfl⟩

theorem gapsOK_concat (l : List Int) (b : Int)
    (h : gapsOK l = true)
    (h2 : ∀ a, l.getLast? = some a → a + timeSecond ≤ b) :
    gapsOK (l ++ [b]) = true := by
  induction l with
  | nil => rfl
  | cons a r ih =>
    cases r with
    | nil =>
      have hab := h2 a rfl
      simp [gapsOK, hab]
    | cons c r2 =>
      have hparts : (a + timeSecond ≤ c) ∧ gapsOK (c :: r2) = true := by
        simpa [gapsOK] using h
      have htail : gapsOK ((c :: r2) ++ [b]) = true := by
        apply ih hparts.2
        intro x hx
        apply h2
        rw [List.getLast?_cons_cons]
        exact hx
      simp only [List.cons_append] at htail ⊢
      simp [gapsOK, hparts.1, htail]

/-- The invariant maintained by `setReadDeadline`: issued renewals are
pairwise at least one second apart, each carries the deadline
`time + (pongWait + pingPeriod)`, and `lastReadTime` is at least the
time of the last issued renewal. -/
def rdInv (pongWait pingPeriod : Int) (s : RDState) : Prop :=
  gapsOK (s.renewals.map Prod.fst) = true ∧
  deadlinesOK pongWait pingPeriod s.renewals = true ∧
  (∀ a, (s.renewals.map Prod.fst).getLast? = some a → a ≤ s.lastReadTime)

theorem setReadDeadline_inv (pw pp now : Int) (s : RDState)
    (h : rdInv pw pp s) : rdInv pw pp (setReadDeadline pw pp now s) := by
  unfold setReadDeadline
  by_cases hc : timeSecond ≤ now - s.lastReadTime
  · rw [if_pos hc]
    refine ⟨?_, ?_, ?_⟩
    · show gapsOK ((s.renewals ++ [(now, now + (pw + pp))]).map Prod.fst) = true
      rw [List.map_append]
      apply gapsOK_concat _ _ h.1
      intro a ha
      have := h.2.2 a ha
      omega
    · show deadlinesOK pw pp (s.renewals ++ [(now, now + (pw + pp))]) = true
      have hd := h.2.1
      unfold deadlinesOK at hd ⊢
      rw [List.all_append, hd]
      simp
    · intro a ha
      rw [List.map_append] at ha
      simp only [List.map_cons, List.map_nil] at ha
      rw [List.getLast?_concat] at ha
      simp at ha
      simp [ha]
  · rw [if_neg hc]
    exact h

theorem runRenewals_inv (pw pp : Int) (times : List Int) :
    ∀ s : RDState, rdInv pw pp s → rdInv pw pp (runRenewals pw pp times s) := by
  induction times with
  | nil => intro s h; exact h
  | cons t rest ih =>
    intro s h
    have h1 := setReadDeadline_inv pw pp t s h
    exact ih (setReadDeadline pw pp t s) h1

/-- C6: read-deadline renewal is coalesced.  Each call of
`setReadDeadline` (made by the read pump on every successful read and on
every pong notification) issues the renewal syscall if and only if at
least one second has elapsed since the last issued renewal, and
otherwise changes nothing; when issued, the deadline is
`now + (PongWait + PingPeriod)`.  Consequently, over any sequence of
call times the issued renewals are pairwise at least one second apart:
under a burst of frames faster than one per second, at most one renewal
syscall per second is made. -/
theorem read_deadline_renewal_coalesced (pw pp t0 : Int) (times : List Int) :
    gapsOK ((runRenewals pw pp times (RDState.mk t0 [])).renewals.map Prod.fst) = true ∧
    deadlinesOK pw pp (runRenewals pw pp times (RDState.mk t0 [])).renewals = true ∧
    (∀ (s : RDState) (now : Int),
      ((setReadDeadline pw pp now s).renewals.length = s.renewals.length + 1 ↔
        timeSecond ≤ now - s.lastReadTime) ∧
      (timeSecond ≤ now - s.lastReadTime ∨ setReadDeadline pw pp now s = s)) := by
  have hinv : rdInv pw pp (RDState.mk t0 []) := by
    refine ⟨rfl, rfl, ?_⟩
    intro a ha
    simp at ha
  have h := runRenewals_inv pw pp times (RDState.mk t0 []) hinv
  refine ⟨h.1, h.2.1, ?_⟩
  intro s now
  constructor
  · unfold setReadDeadline
    by_cases hc : timeSecond ≤ now - s.lastReadTime
    · simp [hc]
    · simp only [hc, if_false, iff_false]
      intro hlen
      omega
  · by_cases hc : timeSecond ≤ now - s.lastReadTime
    · exact Or.inl hc
    · exact Or.inr (by unfold setReadDeadline; rw [if_neg hc])

/-- Witness for `read_deadline_renewal_coalesced` on a concrete burst of
call times (four calls within 1.6 seconds, then one at 4 seconds). -/
theorem read_deadline_renewal_coalesced_witness :
    gapsOK ((runRenewals 5 7
        [0, 300000000, 1500000000, 1600000000, 4000000000]
        (RDState.mk 0 [])).renewals.map Prod.fst) = true :=
  (read_deadline_renewal_coalesced 5 7 0
    [0, 300000000, 1500000000, 1600000000, 4000000000]).1

/-- Witness for `read_pump_start_limit_and_deadline` at concrete
configuration values. -/
theorem read_pump_start_limit_and_deadline_witness :
    (0 : Int) + timeSecond ≤ 2 * timeSecond ∧
    ((readPumpInit 65536 (5 * timeSecond) (2 * timeSecond) 0 (2 * timeSecond)).readLimit
        = some 65536 ∧
      (readPumpInit 65536 (5 * timeSecond) (2 * timeSecond) 0 (2 * timeSecond)).rd.renewals
        = [(2 * timeSecond, 2 * timeSecond + (5 * timeSecond + 2 * timeSecond))] ∧
      (readPumpInit 65536 (5 * timeSecond) (2 * timeSecond) 0 (2 * timeSecond)).rd.lastReadTime
        = 2 * timeSecond) :=
  ⟨by decide,
    read_pump_start_limit_and_deadline 65536 (5 * timeSecond) (2 * timeSecond) 0
      (2 * timeSecond) (by decide)⟩

end Melody
